import Mathlib

/-!
Verification of the fraud-detection warehouse loader
(`py_scripts/database/clients.py`), shallowly embedded in Lean.

SQL values are modelled by `Val` (a nullable string), and SQL's
three-valued logic by `Option Bool` (`none` = UNKNOWN).  A `WHERE`
clause keeps a row only when its condition evaluates to `some true`.
-/

/-- A SQL value: either NULL or a concrete (string) value.  Dates are
modelled as their string rendering, since the SCD2 merge never does
date arithmetic on them. -/
inductive Val
  | null
  | str (s : String)
deriving DecidableEq, Repr

/-- SQL `=` under three-valued logic: NULL on either side is UNKNOWN. -/
def sqlEq : Val → Val → Option Bool
  | Val.null, _ => none
  | _, Val.null => none
  | Val.str a, Val.str b => some (a = b)

/-- SQL `<>` under three-valued logic: NULL on either side is UNKNOWN. -/
def sqlNe : Val → Val → Option Bool
  | Val.null, _ => none
  | _, Val.null => none
  | Val.str a, Val.str b => some (a ≠ b)

/-- Kleene OR on three-valued booleans. -/
def sqlOr : Option Bool → Option Bool → Option Bool
  | some true, _ => some true
  | _, some true => some true
  | some false, some false => some false
  | _, _ => none

/-- A `WHERE` clause accepts a row only when the condition is TRUE. -/
def tvTrue (b : Option Bool) : Bool := b = some true

/-- The OR-chain `dim.c1 <> stg.c1 OR ... OR dim.cn <> stg.cn` built by
`insert_from_stg_table_to_dim_table` over the mapped columns. -/
def differ (as bs : List Val) : Option Bool :=
  (List.zipWith sqlNe as bs).foldr sqlOr (some false)

/-- A staging row, projected to the columns the SCD2 merge touches:
the staging key `stg_pk`, the mapped attribute columns (in mapping
order), and the `date_col` value. -/
structure StgRow where
  key : Val
  attrs : List Val
  date : Val
deriving DecidableEq, Repr

/-- A dimension row: the business key `dim_pk`, the mapped attribute
columns, and the SCD2 bookkeeping columns. -/
structure DimRow where
  key : Val
  attrs : List Val
  effFrom : Val
  effTo : Val
  deleted : Bool
deriving DecidableEq, Repr

/-- Sentinel `self.max_dt = "3000-01-01"`. -/
def maxDt : Val := Val.str "3000-01-01"

/-- Sentinel `self.min_dt = "1900-01-01"`. -/
def minDt : Val := Val.str "1900-01-01"

/-- SQL `COALESCE(v, dflt)`. -/
def coalesce (v dflt : Val) : Val :=
  match v with
  | Val.null => dflt
  | x => x

/-- The staging row (if any) that closes a dimension row in the UPDATE
phase: it must satisfy `dim.dim_pk = stg.stg_pk` and the differ
OR-chain, both evaluating to TRUE.  (`UPDATE ... FROM` uses an
arbitrary matching row; the embedding takes the first.) -/
def closePred (stg : List StgRow) (d : DimRow) : Option StgRow :=
  stg.find? (fun s => tvTrue (sqlEq d.key s.key) && tvTrue (differ d.attrs s.attrs))

/-- Effect of the UPDATE phase on one dimension row: an open row that
matches a staging row on the key and differs in some mapped column gets
`effective_to = stg.date_col` (no COALESCE here) and
`deleted_flg = True`; every other row is untouched. -/
def closeRow (stg : List StgRow) (d : DimRow) : DimRow :=
  if d.deleted then d
  else
    match closePred stg d with
    | some s => { d with effTo := s.date, deleted := true }
    | none => d

/-- Open dimension rows joined to a staging row by
`stg.stg_pk = dim.dim_pk AND dim.deleted_flg = False`. -/
def openMatches (dim1 : List DimRow) (s : StgRow) : List DimRow :=
  dim1.filter (fun d => !d.deleted && tvTrue (sqlEq s.key d.key))

/-- The row the INSERT phase builds from a staging row: mapped
attributes, `effective_from = COALESCE(stg.date_col, min_dt)`,
`effective_to = max_dt`, `deleted_flg = False`. -/
def newRow (s : StgRow) : DimRow :=
  ⟨s.key, s.attrs, coalesce s.date minDt, maxDt, false⟩

/-- The INSERT phase: `stg LEFT JOIN dim ON stg_pk = dim_pk AND NOT
deleted_flg`, keeping rows with `dim.dim_pk IS NULL OR (differ)`.  A
staging row with no open match inserts once; otherwise it inserts once
per open matching row whose differ chain is TRUE. -/
def insertedRows (stg : List StgRow) (dim1 : List DimRow) : List DimRow :=
  stg.flatMap (fun s =>
    let opens := openMatches dim1 s
    if opens.isEmpty then [newRow s]
    else opens.filterMap (fun d =>
      if tvTrue (differ d.attrs s.attrs) then some (newRow s) else none))

/-- The SCD2 merge of `insert_from_stg_table_to_dim_table`: the UPDATE
statement runs first, then the INSERT statement sees the updated
dimension table (both in one `cursor.execute`). -/
def mergeScd2 (stg : List StgRow) (dim : List DimRow) : List DimRow :=
  let dim1 := dim.map (closeRow stg)
  dim1 ++ insertedRows stg dim1

/-- Number of open dimension rows the UPDATE phase of a merge would
close. -/
def closesOf (stg : List StgRow) (dim : List DimRow) : Nat :=
  dim.countP (fun d => !d.deleted && (closePred stg d).isSome)

/-- Number of rows the INSERT phase of a merge would add. -/
def insertsOf (stg : List StgRow) (dim : List DimRow) : Nat :=
  (insertedRows stg (dim.map (closeRow stg))).length

/-- Staging content suitable for SCD2: every key non-null and keys
pairwise distinct. -/
def goodStg (stg : List StgRow) : Prop :=
  (∀ s ∈ stg, s.key ≠ Val.null) ∧ stg.Pairwise (fun a b => a.key ≠ b.key)

/-- At most one open row per business key (value equality on `Val`). -/
def openUnique (dim : List DimRow) : Prop :=
  dim.Pairwise (fun a b => ¬(a.deleted = false ∧ b.deleted = false ∧ a.key = b.key))

instance (dim : List DimRow) : Decidable (openUnique dim) :=
  inferInstanceAs (Decidable (dim.Pairwise _))

instance (stg : List StgRow) : Decidable (goodStg stg) :=
  inferInstanceAs (Decidable (_ ∧ stg.Pairwise _))

/-!
Amount-guessing detector (`report_amount_guessing_fraud`): transactions
of one card, with dates and amounts as integers (seconds / minor
units).  The recursive CTE is embedded as an explicit enumeration of
rn-consecutive runs.
-/

/-- Transaction outcome (`oper_result`). -/
inductive OpRes
  | reject
  | success
  | other
deriving DecidableEq, Repr

/-- One transaction of the card under analysis. -/
structure Txn where
  date : Int
  amt : Int
  res : OpRes
deriving DecidableEq, Repr

/-- The `ordered_transactions` CTE restricted to one card: transactions
with `trans_date >= floor`, ordered by `trans_date` (row numbers are
positions in this list). -/
def orderedTx (floor : Int) (txs : List Txn) : List Txn :=
  List.insertionSort (fun a b => a.date ≤ b.date) (txs.filter (fun t => floor ≤ t.date))

/-- Recursive-CTE extension check: `seqOk o i n` holds when positions
`i, i+1, ..., i+n` form a chain where each extension step `k → k+1`
satisfies `t.trans_date - s.start_date <= 20 minutes` and
`t.amt < previous.amt`. -/
def seqOk (o : List Txn) (i : Nat) : Nat → Bool
  | 0 => decide (i < o.length)
  | n + 1 => seqOk o i n &&
      (match o[i]?, o[i + n]?, o[i + n + 1]? with
       | some s, some p, some t => decide (t.date - s.date ≤ 1200) && decide (t.amt < p.amt)
       | _, _, _ => false)

/-- Number of REJECT outcomes at positions `i..j` of the ordered list. -/
def rejCount (o : List Txn) (i j : Nat) : Nat :=
  ((o.drop i).take (j + 1 - i)).countP (fun t => t.res = OpRes.reject)

/-- The `final_suspicious_transactions` CTE: distinct
`(start_date, end_date)` pairs of runs with length >= 4, at least 3
rejects, ending in SUCCESS. -/
def finalRanges (o : List Txn) : List (Int × Int) :=
  ((List.range o.length).flatMap (fun i =>
    (List.range o.length).filterMap (fun j =>
      match o[i]?, o[j]? with
      | some ti, some tj =>
        if i ≤ j ∧ seqOk o i (j - i) ∧ 4 ≤ j + 1 - i ∧ 3 ≤ rejCount o i j ∧
            tj.res = OpRes.success
        then some (ti.date, tj.date) else none
      | _, _ => none))).dedup

/-- Latest transaction of a list (`ROW_NUMBER ... ORDER BY trans_date
DESC` picks row 1). -/
def latestTx (l : List Txn) : Option Txn :=
  l.foldl (fun acc t =>
    match acc with
    | none => some t
    | some m => if m.date < t.date then some t else some m) none

/-- Events the amount-guessing detector reports for one card, as
`(trans_date, oper_result)` pairs: every REJECT whose date lies in some
final range, plus, per distinct run start date, the latest transaction
among all joined ranges when it is a SUCCESS (the UNION deduplicates). -/
def amountGuessEvents (floor : Int) (txs : List Txn) : List (Int × OpRes) :=
  let o := orderedTx floor txs
  let fr := finalRanges o
  let rejects := o.filter (fun t =>
    t.res = OpRes.reject && fr.any (fun r => r.1 ≤ t.date && t.date ≤ r.2))
  let succs := (fr.map Prod.fst).dedup.filterMap (fun sd =>
    match latestTx (o.filter (fun t =>
        fr.any (fun r => r.1 = sd && r.1 ≤ t.date && t.date ≤ r.2))) with
    | some t => if t.res = OpRes.success then some t else none
    | none => none)
  (((rejects ++ succs).map (fun t => (t.date, t.res)))).dedup

/-!
Geo detector (`report_transactions_in_different_cities_fraud`): rows of
the `filtered_transactions` CTE, i.e. transactions already joined
through open terminal/card/account/client dimension rows.
-/

/-- A `filtered_transactions` row: epoch seconds, terminal city and the
card-holder's passport. -/
structure GeoTx where
  date : Int
  city : String
  passport : String
deriving DecidableEq, Repr

/-- The self-join condition: same passport, different terminal city,
absolute epoch difference at most 3600 seconds. -/
def geoPair (t1 t2 : GeoTx) : Bool :=
  t1.passport = t2.passport && t1.city ≠ t2.city && |t2.date - t1.date| ≤ 3600

/-- Events the geo detector reports, as `(event_dt, passport)` pairs:
`SELECT DISTINCT` over first transactions `t1` with `trans_date >=
floor` paired with some qualifying `t2`. -/
def geoEvents (floor : Int) (txs : List GeoTx) : List (Int × String) :=
  ((txs.filter (fun t1 => floor ≤ t1.date && txs.any (fun t2 => geoPair t1 t2))).map
    (fun t => (t.date, t.passport))).dedup

/-!
Blacklist / expired-passport detector (`report_blacklist_fraud`).
The dimension rows carry their `deleted_flg`; the embedding keeps the
source's join conditions verbatim, including the fact that the
accounts and clients joins test `c.deleted_flg` (the card row's flag)
rather than the account's or client's own flag.
-/

/-- SQL `TRIM`: strips leading and trailing spaces.  (Defined over the
character list so it evaluates by kernel reduction.) -/
def sqlTrim (s : String) : String :=
  String.mk (((s.data.dropWhile (fun c => c = ' ')).reverse.dropWhile
    (fun c => c = ' ')).reverse)

/-- A `FACT transactions` row used by the blacklist detector. -/
structure TxRow where
  transDate : Int
  cardNum : String
deriving DecidableEq, Repr

/-- A cards dimension row. -/
structure CardRow where
  cardsNum : String
  accountNum : String
  deleted : Bool
deriving DecidableEq, Repr

/-- An accounts dimension row. -/
structure AccountRow where
  accountNum : String
  client : String
  deleted : Bool
deriving DecidableEq, Repr

/-- A clients dimension row. -/
structure ClientRow where
  clientId : String
  passportNum : String
  passportValidTo : Int
  deleted : Bool
deriving DecidableEq, Repr

/-- A `FACT blacklist` row. -/
structure BlRow where
  passportNum : String
  entryDt : Int
deriving DecidableEq, Repr

/-- The blacklist detector as written in the source: note the accounts
and clients joins repeat `c.deleted = false` (lines 509 and 511 of
`clients.py` test `c.deleted_flg`, not `a.`/`cl.deleted_flg`), so
closed account and client rows also join; the accounts table is the
hardcoded `public.maka_dwh_dim_accounts_hist`.  Events are
`(event_dt, passport)` pairs, duplicates kept (no DISTINCT). -/
def blacklistFraudCode (floor : Int) (txs : List TxRow) (cards : List CardRow)
    (accounts : List AccountRow) (clients : List ClientRow)
    (blacklist : List BlRow) : List (Int × String) :=
  txs.flatMap (fun t => cards.flatMap (fun c => accounts.flatMap (fun a =>
    clients.flatMap (fun cl => blacklist.filterMap (fun p =>
      if sqlTrim t.cardNum = sqlTrim c.cardsNum ∧ c.deleted = false ∧
          c.accountNum = a.accountNum ∧ c.deleted = false ∧
          a.client = cl.clientId ∧ c.deleted = false ∧
          cl.passportNum = p.passportNum ∧
          (p.entryDt ≤ t.transDate ∨ cl.passportValidTo ≤ t.transDate) ∧
          floor ≤ t.transDate
      then some (t.transDate, cl.passportNum) else none)))))

/-- Modelled from the spec: the claim's reading of the blacklist
detector, in which the card, account and client rows must each be
currently open (`deleted_flg = false`), and the client qualifies with a
sufficiently old blacklist entry or an expired passport.  Returns the
reported transactions. -/
def blacklistFraudSpec (floor : Int) (txs : List TxRow) (cards : List CardRow)
    (accounts : List AccountRow) (clients : List ClientRow)
    (blacklist : List BlRow) : List TxRow :=
  txs.filter (fun t => floor ≤ t.transDate &&
    cards.any (fun c => sqlTrim t.cardNum = sqlTrim c.cardsNum && !c.deleted &&
      accounts.any (fun a => c.accountNum = a.accountNum && !a.deleted &&
        clients.any (fun cl => a.client = cl.clientId && !cl.deleted &&
          (blacklist.any (fun p =>
              cl.passportNum = p.passportNum && p.entryDt ≤ t.transDate) ||
            cl.passportValidTo ≤ t.transDate)))))

/-!
Generic copy-missing primitive (`Client.insert_from_table_to_table`)
and the staging / registry operations.
-/

/-- A generic table row: the values of the mapped columns, in mapping
order. -/
abbrev Row : Type := List Val

/-- The `WHERE dest.c1 = src.c1 AND ... AND dest.cn = src.cn` condition
of the anti-join: every column pair equal and TRUE under SQL
three-valued equality. -/
def rowEqTrue : Row → Row → Bool
  | [], [] => true
  | a :: as, b :: bs => tvTrue (sqlEq a b) && rowEqTrue as bs
  | _, _ => false

/-- `insert_from_table_to_table`: append every source row for which no
destination row satisfies the all-columns-equal condition (the `NOT
EXISTS` anti-join, evaluated against the destination as it was before
the statement). -/
def copyMissing (src dst : List Row) : List Row :=
  dst ++ src.filter (fun s => !(dst.any (fun d => rowEqTrue d s)))

/-- Staging-group table names (`STGTableNames`): the pydantic model has
exactly these six fields, so `hasattr` succeeds exactly on them. -/
structure STGNames where
  accounts : String
  blacklist : String
  cards : String
  clients : String
  terminals : String
  transactions : String

/-- Dimension-group table names (`DIMTableNames`). -/
structure DIMNames where
  accounts : String
  cards : String
  clients : String
  terminals : String

/-- Fact-group table names (`FACTTableNames`). -/
structure FACTNames where
  blacklist : String
  transactions : String

/-- `hasattr(self.schema.STG, field_name)` / `__getattribute__`. -/
def resolveSTG (n : STGNames) : String → Option String
  | "accounts" => some n.accounts
  | "blacklist" => some n.blacklist
  | "cards" => some n.cards
  | "clients" => some n.clients
  | "terminals" => some n.terminals
  | "transactions" => some n.transactions
  | _ => none

/-- `hasattr(self.schema.DIM, field_name)` / `__getattribute__`. -/
def resolveDIM (n : DIMNames) : String → Option String
  | "accounts" => some n.accounts
  | "cards" => some n.cards
  | "clients" => some n.clients
  | "terminals" => some n.terminals
  | _ => none

/-- `hasattr(self.schema.FACT, field_name)` / `__getattribute__`. -/
def resolveFACT (n : FACTNames) : String → Option String
  | "blacklist" => some n.blacklist
  | "transactions" => some n.transactions
  | _ => none

/-- A database of generic tables, keyed by physical table name. -/
abbrev Db : Type := String → List Row

/-- `clear_table` followed by `insert_df_to_table`: the table holds
exactly the batch afterwards. -/
def clearInsert (db : Db) (t : String) (data : List Row) : Db :=
  fun u => if u = t then data else db u

/-- `insert_to_stg_table`: resolve the staging table for the field
name; on success clear it and insert the batch; on an unknown field
name raise `AttributeError` (modelled as `none`) without touching any
table. -/
def insertToStg (n : STGNames) (field : String) (data : List Row) (db : Db) :
    Option Db :=
  match resolveSTG n field with
  | some t => some (clearInsert db t data)
  | none => none

/-- A database of staging tables in SCD2 shape, keyed by table name. -/
abbrev DbStg : Type := String → List StgRow

/-- A database of dimension tables, keyed by table name. -/
abbrev DbDim : Type := String → List DimRow

/-- The SCD2 merge guarded by name resolution
(`insert_from_stg_table_to_dim_table` lines 447-452): when either the
staging or the dimension name is unresolved the call silently returns
with no query executed. -/
def mergeScd2Op (stgN : STGNames) (dimN : DIMNames) (field : String)
    (dbS : DbStg) (dbD : DbDim) : DbDim :=
  match resolveSTG stgN field, resolveDIM dimN field with
  | some ts, some td => fun u => if u = td then mergeScd2 (dbS ts) (dbD u) else dbD u
  | _, _ => dbD

/-- Fact propagation (`insert_incoming_tables` step 3): when both the
staging and the fact name resolve, run `insert_from_table_to_table`;
otherwise silently skip. -/
def factPropOp (stgN : STGNames) (factN : FACTNames) (field : String)
    (db : Db) : Db :=
  match resolveSTG stgN field, resolveFACT factN field with
  | some ts, some tf => fun u => if u = tf then copyMissing (db ts) (db u) else db u
  | _, _ => db

/-!
Helper lemmas about the three-valued connectives.
-/

/-- Kleene OR is TRUE exactly when one operand is TRUE. -/
theorem tvTrue_sqlOr (a b : Option Bool) :
    tvTrue (sqlOr a b) = (tvTrue a || tvTrue b) := by
  rcases a with _ | a <;> rcases b with _ | b <;>
    first
      | rfl
      | (cases a <;> rfl)
      | (cases b <;> rfl)
      | (cases a <;> cases b <;> rfl)

/-- A folded OR-chain is TRUE exactly when some term is TRUE. -/
theorem tvTrue_foldr_sqlOr (l : List (Option Bool)) :
    tvTrue (l.foldr sqlOr (some false)) = l.any tvTrue := by
  induction l with
  | nil => rfl
  | cons h t ih => simp [List.foldr, tvTrue_sqlOr, ih]

/-- The differ OR-chain is TRUE exactly when some column comparison is
TRUE. -/
theorem tvTrue_differ (as bs : List Val) :
    tvTrue (differ as bs) = (List.zipWith sqlNe as bs).any tvTrue := by
  unfold differ; exact tvTrue_foldr_sqlOr _

/-- SQL `<>` never evaluates TRUE on a value compared with itself. -/
theorem sqlNe_self (a : Val) : tvTrue (sqlNe a a) = false := by
  cases a with
  | null => rfl
  | str s => simp [sqlNe, tvTrue]

/-- A row never truly differs from itself. -/
theorem differ_self (as : List Val) : tvTrue (differ as as) = false := by
  rw [tvTrue_differ]
  rw [List.any_eq_false]
  intro x hx
  induction as with
  | nil => simp at hx
  | cons a t ih =>
    simp only [List.zipWith_cons_cons, List.mem_cons] at hx
    rcases hx with rfl | hx
    · simp [sqlNe_self]
    · exact ih hx

/-- TRUE SQL equality implies value equality with both sides non-null. -/
theorem sqlEq_true {a b : Val} (h : tvTrue (sqlEq a b) = true) :
    a = b ∧ a ≠ Val.null := by
  cases a with
  | null => simp [sqlEq, tvTrue] at h
  | str x =>
    cases b with
    | null => simp [sqlEq, tvTrue] at h
    | str y =>
      simp [sqlEq, tvTrue] at h
      simp [h]

/-- SQL equality on a non-null value and itself is TRUE. -/
theorem sqlEq_self {a : Val} (h : a ≠ Val.null) : tvTrue (sqlEq a a) = true := by
  cases a with
  | null => exact absurd rfl h
  | str s => simp [sqlEq, tvTrue]

/-- SQL equality is symmetric. -/
theorem sqlEq_comm (a b : Val) : sqlEq a b = sqlEq b a := by
  cases a <;> cases b <;> simp [sqlEq, eq_comm]

/-- C1: SCD2 merge postcondition on the clients scenario: staging has
C1 with phone "111" effective 2024-01-01, the dimension's open row for
C1 has phone "000"; the merge closes the old row with `effective_to =
2024-01-01`, `deleted_flg = true` and inserts phone "111" with
`effective_from = 2024-01-01`, `effective_to = 3000-01-01`,
`deleted_flg = false`; with a null staging date the inserted row gets
the sentinel `effective_from = 1900-01-01`. -/
theorem scd2_merge_client_scenario :
    mergeScd2 [⟨Val.str "C1", [Val.str "111"], Val.str "2024-01-01"⟩]
        [⟨Val.str "C1", [Val.str "000"], Val.str "2020-01-01", Val.str "3000-01-01", false⟩] =
      [⟨Val.str "C1", [Val.str "000"], Val.str "2020-01-01", Val.str "2024-01-01", true⟩,
       ⟨Val.str "C1", [Val.str "111"], Val.str "2024-01-01", Val.str "3000-01-01", false⟩] ∧
    (mergeScd2 [⟨Val.str "C1", [Val.str "111"], Val.null⟩]
        [⟨Val.str "C1", [Val.str "000"], Val.str "2020-01-01", Val.str "3000-01-01", false⟩]).map
        DimRow.effFrom =
      [Val.str "2020-01-01", Val.str "1900-01-01"] := by
  decide

/-- C2 (counterexample): the SCD2 merge is not idempotent for every
staging table: a staging row whose key is NULL never joins any open
dimension row, so each run inserts it again — the second run inserts
one row, not zero. -/
theorem scd2_merge_not_idempotent_null_key :
    insertsOf [⟨Val.null, [], Val.null⟩]
        (mergeScd2 [⟨Val.null, [], Val.null⟩] []) = 1 := by
  decide

/-- C3 (counterexample): a single merge of a staging table holding two
rows with the same key breaks open-row uniqueness, starting from an
empty (invariant-satisfying) dimension. -/
theorem scd2_merge_open_unique_fails_dup_keys :
    ¬ openUnique
        (mergeScd2
          [⟨Val.str "k", [Val.str "a"], Val.str "2024-01-01"⟩,
           ⟨Val.str "k", [Val.str "b"], Val.str "2024-01-01"⟩]
          []) ∧ openUnique ([] : List DimRow) := by
  constructor
  · decide
  · exact List.Pairwise.nil

/-- C4 (counterexample): an open dimension row whose mapped attribute
is NULL is NOT closed or re-versioned when the staging attribute is
non-null: `NULL <> '111'` is UNKNOWN, the WHERE clauses reject it, and
the merge leaves the table unchanged. -/
theorem scd2_merge_null_attr_not_closed :
    mergeScd2 [⟨Val.str "C1", [Val.str "111"], Val.str "2024-01-01"⟩]
        [⟨Val.str "C1", [Val.null], Val.str "2020-01-01", Val.str "3000-01-01", false⟩] =
      [⟨Val.str "C1", [Val.null], Val.str "2020-01-01", Val.str "3000-01-01", false⟩] := by
  decide

/-- C5: amount-guessing scenario: four transactions at t0, t0+5m,
t0+10m, t0+15m with amounts 1000, 800, 500, 200 and outcomes REJECT,
REJECT, REJECT, SUCCESS form a qualifying run and all four are
reported; the fifth transaction at t0+25m (outside the 20-minute
window from t0) is not reported. -/
theorem amount_guessing_scenario :
    amountGuessEvents 0
        [⟨0, 1000, OpRes.reject⟩, ⟨300, 800, OpRes.reject⟩, ⟨600, 500, OpRes.reject⟩,
         ⟨900, 200, OpRes.success⟩, ⟨1500, 100, OpRes.success⟩] =
      [(0, OpRes.reject), (300, OpRes.reject), (600, OpRes.reject),
       (900, OpRes.success)] ∧
    (1500, OpRes.success) ∉
      amountGuessEvents 0
        [⟨0, 1000, OpRes.reject⟩, ⟨300, 800, OpRes.reject⟩, ⟨600, 500, OpRes.reject⟩,
         ⟨900, 200, OpRes.success⟩, ⟨1500, 100, OpRes.success⟩] := by
  decide

/-- C7: the blacklist detector as coded reports a transaction whose
account dimension row is closed (`deleted_flg = true`), because the
accounts and clients join conditions re-test the card's flag
(`c.deleted_flg`) instead of the account's and client's own flags; the
claim's open-chain reading reports nothing on the same tables. -/
theorem blacklist_code_reports_closed_account_chain :
    blacklistFraudCode 0 [⟨10, "c1"⟩] [⟨"c1", "a1", false⟩] [⟨"a1", "cl1", true⟩]
        [⟨"cl1", "P1", 99999, false⟩] [⟨"P1", 0⟩] = [(10, "P1")] ∧
    blacklistFraudSpec 0 [⟨10, "c1"⟩] [⟨"c1", "a1", false⟩] [⟨"a1", "cl1", true⟩]
        [⟨"cl1", "P1", 99999, false⟩] [⟨"P1", 0⟩] = [] := by
  constructor
  · rfl
  · rfl

/-- C8 (counterexample): `copy_missing` is not idempotent for every
source: SQL equality with a NULL column is UNKNOWN, so a source row
holding NULL matches no destination row and is inserted again on every
run, duplicating it. -/
theorem copy_missing_null_reinserted :
    copyMissing [[Val.null]] [] = [[Val.null]] ∧
    copyMissing [[Val.null]] (copyMissing [[Val.null]] []) =
      [[Val.null], [Val.null]] := by
  decide

/-!
Structural lemmas about the SCD2 merge, towards the idempotence and
open-row-uniqueness results.
-/

/-- `closeRow` preserves the key, the attributes and `effective_from`:
the UPDATE phase only ever touches `effective_to` and `deleted_flg`. -/
theorem closeRow_fields (stg : List StgRow) (d : DimRow) :
    (closeRow stg d).key = d.key ∧ (closeRow stg d).attrs = d.attrs ∧
      (closeRow stg d).effFrom = d.effFrom := by
  unfold closeRow
  split
  · exact ⟨rfl, rfl, rfl⟩
  · split <;> exact ⟨rfl, rfl, rfl⟩

/-- A row that is open after the UPDATE phase was untouched by it and
matches no staging row in key and differing attributes. -/
theorem closeRow_open (stg : List StgRow) (d : DimRow)
    (h : (closeRow stg d).deleted = false) :
    closeRow stg d = d ∧ closePred stg d = none ∧ d.deleted = false := by
  by_cases hd : d.deleted = true
  · rw [closeRow, if_pos hd] at h
    rw [h] at hd
    cases hd
  · have hd' : d.deleted = false := by simpa using hd
    cases hp : closePred stg d with
    | some s =>
      rw [closeRow, if_neg hd, hp] at h
      cases h
    | none =>
      refine ⟨?_, rfl, hd'⟩
      rw [closeRow, if_neg hd, hp]

/-- Pairwise-distinct keys make the key a lookup key: two staging rows
with equal keys are the same row. -/
theorem pairwise_key_inj {stg : List StgRow}
    (h : stg.Pairwise (fun a b => a.key ≠ b.key)) :
    ∀ s ∈ stg, ∀ x ∈ stg, s.key = x.key → s = x := by
  induction stg with
  | nil => intro s hs; cases hs
  | cons a rest ih =>
    rcases List.pairwise_cons.mp h with ⟨ha, hrest⟩
    intro s hs x hx hkey
    rcases List.mem_cons.mp hs with rfl | hs'
    · rcases List.mem_cons.mp hx with rfl | hx'
      · rfl
      · exact absurd hkey (ha x hx')
    · rcases List.mem_cons.mp hx with rfl | hx'
      · exact absurd hkey.symm (ha s hs')
      · exact ih hrest s hs' x hx' hkey

/-- After the UPDATE phase, every open row joined to a staging row
already agrees with it, so the INSERT phase adds exactly the staging
rows with no remaining open match. -/
theorem insertedRows_after_close (stg L : List StgRow) (dim : List DimRow)
    (hL : ∀ s ∈ L, s ∈ stg) :
    insertedRows L (dim.map (closeRow stg)) =
      (L.filter (fun s =>
        (openMatches (dim.map (closeRow stg)) s).isEmpty)).map newRow := by
  induction L with
  | nil => rfl
  | cons s rest ih =>
    have hs : s ∈ stg := hL s (List.mem_cons_self _ _)
    have hrest : ∀ x ∈ rest, x ∈ stg := fun x hx => hL x (List.mem_cons_of_mem _ hx)
    simp only [insertedRows, List.flatMap_cons] at *
    rw [ih hrest]
    by_cases he : (openMatches (dim.map (closeRow stg)) s).isEmpty = true
    · simp [List.filter_cons, he]
    · have hnil : (openMatches (dim.map (closeRow stg)) s).filterMap
          (fun d => if tvTrue (differ d.attrs s.attrs) then some (newRow s) else none) = [] := by
        rw [List.filterMap_eq_nil_iff]
        intro d hd
        obtain ⟨hdmem, hdcond⟩ := List.mem_filter.mp hd
        obtain ⟨d0, _, rfl⟩ := List.mem_map.mp hdmem
        rw [Bool.and_eq_true] at hdcond
        have hopen : (closeRow stg d0).deleted = false := by
          have := hdcond.1
          simpa using this
        obtain ⟨heq, hcp, _⟩ := closeRow_open stg d0 hopen
        have hnone := List.find?_eq_none.mp hcp s hs
        have hkey : tvTrue (sqlEq d0.key s.key) = true := by
          rw [sqlEq_comm]
          have := hdcond.2
          rwa [heq] at this
        have hdif : tvTrue (differ d0.attrs s.attrs) = false := by
          by_cases hx : tvTrue (differ d0.attrs s.attrs) = true
          · exact absurd (by rw [Bool.and_eq_true]; exact ⟨hkey, hx⟩) hnone
          · simpa using hx
        rw [heq, hdif]
        rfl
      simp [List.filter_cons, he, hnil]

/-- No open row of a merged table is closed by a second run of the same
merge. -/
theorem merge_no_close (stg : List StgRow) (dim : List DimRow)
    (h2 : stg.Pairwise (fun a b => a.key ≠ b.key)) :
    ∀ d ∈ mergeScd2 stg dim, d.deleted = false → closePred stg d = none := by
  intro d hd hopen
  rcases List.mem_append.mp hd with hd | hd
  · obtain ⟨d0, _, rfl⟩ := List.mem_map.mp hd
    obtain ⟨heq, hcp, _⟩ := closeRow_open stg d0 hopen
    rw [heq]
    exact hcp
  · rw [insertedRows_after_close stg stg dim (fun s hs => hs)] at hd
    obtain ⟨s, hsf, rfl⟩ := List.mem_map.mp hd
    have hs : s ∈ stg := (List.mem_filter.mp hsf).1
    unfold closePred
    rw [List.find?_eq_none]
    intro x hx hcond
    rw [Bool.and_eq_true] at hcond
    obtain ⟨hkey, hdif⟩ := hcond
    have hsx : (newRow s).key = x.key ∧ (newRow s).key ≠ Val.null := sqlEq_true hkey
    have hx' : s = x := pairwise_key_inj h2 s hs x hx hsx.1
    subst hx'
    rw [show (newRow s).attrs = s.attrs from rfl, differ_self] at hdif
    cases hdif

/-- A second run of the UPDATE phase on the merged table changes no
row. -/
theorem merge_fixed (stg : List StgRow) (dim : List DimRow)
    (h2 : stg.Pairwise (fun a b => a.key ≠ b.key)) :
    (mergeScd2 stg dim).map (closeRow stg) = mergeScd2 stg dim := by
  have : ∀ d ∈ mergeScd2 stg dim, closeRow stg d = d := by
    intro d hd
    by_cases hdel : d.deleted = true
    · rw [closeRow, if_pos hdel]
    · have hopen : d.deleted = false := by simpa using hdel
      rw [closeRow, if_neg hdel, merge_no_close stg dim h2 d hd hopen]
  rw [List.map_congr_left this, List.map_id_fun']
  rfl

/-- After a merge with non-null pairwise-distinct staging keys, every
staging row has an open match in the merged table. -/
theorem merge_opens_nonempty (stg : List StgRow) (dim : List DimRow)
    (h1 : ∀ s ∈ stg, s.key ≠ Val.null) :
    ∀ s ∈ stg, openMatches (mergeScd2 stg dim) s ≠ [] := by
  intro s hs
  have happ : openMatches (mergeScd2 stg dim) s =
      openMatches (dim.map (closeRow stg)) s ++
        openMatches (insertedRows stg (dim.map (closeRow stg))) s := by
    unfold openMatches
    exact List.filter_append _ _
  rw [happ]
  by_cases he : (openMatches (dim.map (closeRow stg)) s).isEmpty = true
  · have hmem : newRow s ∈ insertedRows stg (dim.map (closeRow stg)) := by
      rw [insertedRows_after_close stg stg dim (fun x hx => hx)]
      exact List.mem_map.mpr ⟨s, List.mem_filter.mpr ⟨hs, he⟩, rfl⟩
    have : newRow s ∈ openMatches (insertedRows stg (dim.map (closeRow stg))) s := by
      refine List.mem_filter.mpr ⟨hmem, ?_⟩
      rw [Bool.and_eq_true]
      refine ⟨rfl, ?_⟩
      rw [show (newRow s).key = s.key from rfl]
      exact sqlEq_self (h1 s hs)
    intro hcontra
    rw [List.append_eq_nil] at hcontra
    rw [hcontra.2] at this
    cases this
  · intro hcontra
    rw [List.append_eq_nil] at hcontra
    rw [hcontra.1] at he
    exact he rfl

/-- C2 (amended): for staging content whose keys are non-null and
pairwise distinct, the SCD2 merge is idempotent: a second run with
unchanged staging closes zero rows, inserts zero rows, and leaves the
dimension table exactly as after the first run.  (Without that
assumption the claim fails: see the null-key counterexample.) -/
theorem scd2_merge_idempotent (stg : List StgRow) (dim : List DimRow)
    (h : goodStg stg) :
    mergeScd2 stg (mergeScd2 stg dim) = mergeScd2 stg dim ∧
    closesOf stg (mergeScd2 stg dim) = 0 ∧
    insertsOf stg (mergeScd2 stg dim) = 0 := by
  obtain ⟨h1, h2⟩ := h
  have hfix : (mergeScd2 stg dim).map (closeRow stg) = mergeScd2 stg dim :=
    merge_fixed stg dim h2
  have hins : insertedRows stg ((mergeScd2 stg dim).map (closeRow stg)) = [] := by
    rw [insertedRows_after_close stg stg (mergeScd2 stg dim) (fun x hx => hx)]
    have : stg.filter
        (fun s => (openMatches ((mergeScd2 stg dim).map (closeRow stg)) s).isEmpty) = [] := by
      rw [List.filter_eq_nil_iff]
      intro s hs
      simp only [hfix, List.isEmpty_iff]
      exact merge_opens_nonempty stg dim h1 s hs
    rw [this, List.map_nil]
  refine ⟨?_, ?_, ?_⟩
  · show (mergeScd2 stg dim).map (closeRow stg) ++
        insertedRows stg ((mergeScd2 stg dim).map (closeRow stg)) = mergeScd2 stg dim
    rw [hins, hfix, List.append_nil]
  · unfold closesOf
    rw [List.countP_eq_zero]
    intro d hd
    by_cases hdel : d.deleted = true
    · simp [hdel]
    · have hopen : d.deleted = false := by simpa using hdel
      simp [merge_no_close stg dim h2 d hd hopen, hopen]
  · unfold insertsOf
    rw [hins]
    rfl

/-- Witness for the amended idempotence theorem at a concrete
staging/dimension pair. -/
theorem scd2_merge_idempotent_witness :
    goodStg [⟨Val.str "k", [Val.str "v"], Val.str "2024-01-01"⟩] ∧
    mergeScd2 [⟨Val.str "k", [Val.str "v"], Val.str "2024-01-01"⟩]
        (mergeScd2 [⟨Val.str "k", [Val.str "v"], Val.str "2024-01-01"⟩] []) =
      mergeScd2 [⟨Val.str "k", [Val.str "v"], Val.str "2024-01-01"⟩] [] :=
  ⟨by decide, (scd2_merge_idempotent _ [] (by decide)).1⟩

/-- One SCD2 merge with non-null pairwise-distinct staging keys
preserves open-row uniqueness. -/
theorem merge_preserves_openUnique (stg : List StgRow) (dim : List DimRow)
    (hg : goodStg stg) (hd : openUnique dim) :
    openUnique (mergeScd2 stg dim) := by
  obtain ⟨h1, h2⟩ := hg
  show List.Pairwise _
    (dim.map (closeRow stg) ++ insertedRows stg (dim.map (closeRow stg)))
  rw [List.pairwise_append]
  refine ⟨?_, ?_, ?_⟩
  · refine hd.map (closeRow stg) ?_
    intro a b hab hcon
    obtain ⟨ha, hb, hk⟩ := hcon
    obtain ⟨haeq, _, haop⟩ := closeRow_open stg a ha
    obtain ⟨hbeq, _, hbop⟩ := closeRow_open stg b hb
    rw [haeq, hbeq] at hk
    exact hab ⟨haop, hbop, hk⟩
  · rw [insertedRows_after_close stg stg dim (fun x hx => hx)]
    refine List.Pairwise.map newRow ?_
      (List.Pairwise.sublist (List.filter_sublist _) h2)
    intro a b hab hcon
    exact hab hcon.2.2
  · intro a ha b hb hcon
    obtain ⟨hao, hbo, hk⟩ := hcon
    rw [insertedRows_after_close stg stg dim (fun x hx => hx)] at hb
    obtain ⟨s, hsf, rfl⟩ := List.mem_map.mp hb
    obtain ⟨hss, hsP⟩ := List.mem_filter.mp hsf
    have hamem : a ∈ openMatches (dim.map (closeRow stg)) s := by
      refine List.mem_filter.mpr ⟨ha, ?_⟩
      rw [Bool.and_eq_true]
      refine ⟨by simp [hao], ?_⟩
      rw [show (newRow s).key = s.key from rfl] at hk
      rw [← hk]
      exact sqlEq_self (by rw [hk]; exact h1 s hss)
    rw [List.isEmpty_iff] at hsP
    rw [hsP] at hamem
    cases hamem

/-- Folding a sequence of merges preserves open-row uniqueness. -/
theorem fold_preserves_openUnique :
    ∀ (stgs : List (List StgRow)) (dim : List DimRow),
      (∀ stg ∈ stgs, goodStg stg) → openUnique dim →
      openUnique (stgs.foldl (fun d stg => mergeScd2 stg d) dim) := by
  intro stgs
  induction stgs with
  | nil => exact fun dim _ hd => hd
  | cons stg rest ih =>
    intro dim hg hd
    rw [List.foldl_cons]
    exact ih _ (fun x hx => hg x (List.mem_cons_of_mem _ hx))
      (merge_preserves_openUnique stg dim (hg stg (List.mem_cons_self _ _)) hd)

/-- C3 (amended): starting from a dimension table with at most one open
row per key, any sequence of SCD2 merges whose staging tables have
non-null pairwise-distinct keys preserves that invariant; moreover the
UPDATE phase never modifies a row's key, attributes or
`effective_from` (history is append-only up to the
`effective_to`/`deleted_flg` pair).  (Without the key assumption the
claim fails: see the duplicate-key counterexample.) -/
theorem scd2_sequence_preserves_openUnique (stgs : List (List StgRow))
    (dim : List DimRow) (hg : ∀ stg ∈ stgs, goodStg stg) (hd : openUnique dim) :
    openUnique (stgs.foldl (fun d stg => mergeScd2 stg d) dim) ∧
    (∀ (stg : List StgRow) (d : DimRow), (closeRow stg d).key = d.key ∧
      (closeRow stg d).attrs = d.attrs ∧ (closeRow stg d).effFrom = d.effFrom) :=
  ⟨fold_preserves_openUnique stgs dim hg hd, fun stg d => closeRow_fields stg d⟩

/-- Witness for the amended uniqueness theorem at a concrete sequence
of two merges. -/
theorem scd2_sequence_preserves_openUnique_witness :
    (∀ stg ∈ [[⟨Val.str "k", [Val.str "a"], Val.str "2024-01-01"⟩],
               [(⟨Val.str "k", [Val.str "b"], Val.str "2024-02-01"⟩ : StgRow)]],
      goodStg stg) ∧
    openUnique ([] : List DimRow) ∧
    openUnique
      ([[⟨Val.str "k", [Val.str "a"], Val.str "2024-01-01"⟩],
        [(⟨Val.str "k", [Val.str "b"], Val.str "2024-02-01"⟩ : StgRow)]].foldl
        (fun d stg => mergeScd2 stg d) []) :=
  ⟨by decide, by decide,
   (scd2_sequence_preserves_openUnique _ [] (by decide) (by decide)).1⟩

/-- With no mapped pair both non-null and unequal, the differ chain is
never TRUE: a null against anything compares UNKNOWN, not "differs". -/
theorem differ_not_true (as bs : List Val)
    (h : ∀ p ∈ List.zip as bs, p.1 = Val.null ∨ p.2 = Val.null ∨ p.1 = p.2) :
    tvTrue (differ as bs) = false := by
  rw [tvTrue_differ, List.any_eq_false]
  intro x hx
  induction as generalizing bs with
  | nil => cases hx
  | cons a at' ih =>
    cases bs with
    | nil => cases hx
    | cons b bt =>
      rw [List.zipWith_cons_cons, List.mem_cons] at hx
      rcases hx with rfl | hx
      · have hp := h (a, b) (List.mem_cons_self _ _)
        rcases hp with hp | hp | hp
        · have hp' : a = Val.null := hp
          subst hp'; simp [sqlNe, tvTrue]
        · have hp' : b = Val.null := hp
          subst hp'; cases a <;> simp [sqlNe, tvTrue]
        · have hp' : a = b := hp
          subst hp'; rw [sqlNe_self]; simp
      · exact ih bt (fun p hp => h p (List.mem_cons_of_mem _ hp)) hx

/-- C4 (amended): the per-mapped-column comparison uses SQL `<>`, for
which a null against a non-null value is UNKNOWN, not "differs": when
no mapped pair is non-null-and-unequal (in particular when the only
difference is null vs non-null), the open dimension row is neither
closed nor re-versioned — the merge leaves the table unchanged. -/
theorem scd2_null_pairs_not_differ (s : StgRow) (d : DimRow)
    (hopen : d.deleted = false)
    (hkey : tvTrue (sqlEq s.key d.key) = true)
    (hcols : ∀ p ∈ List.zip d.attrs s.attrs,
      p.1 = Val.null ∨ p.2 = Val.null ∨ p.1 = p.2) :
    mergeScd2 [s] [d] = [d] := by
  have hdif : tvTrue (differ d.attrs s.attrs) = false := differ_not_true _ _ hcols
  have hcp : closePred [s] d = none := by
    unfold closePred
    rw [List.find?_eq_none]
    intro x hx
    rcases List.mem_cons.mp hx with rfl | hx
    · rw [Bool.and_eq_true]
      intro hcon
      rw [hdif] at hcon
      cases hcon.2
    · cases hx
  have hdel : ¬ d.deleted = true := by simp [hopen]
  have hcr : closeRow [s] d = d := by rw [closeRow, if_neg hdel, hcp]
  show [d].map (closeRow [s]) ++ insertedRows [s] ([d].map (closeRow [s])) = [d]
  rw [List.map_cons, List.map_nil, hcr]
  have hop : openMatches [d] s = [d] := by
    unfold openMatches
    rw [List.filter_cons_of_pos, List.filter_nil]
    rw [Bool.and_eq_true]
    exact ⟨by simp [hopen], hkey⟩
  show [d] ++ insertedRows [s] [d] = [d]
  have : insertedRows [s] [d] = [] := by
    unfold insertedRows
    rw [List.flatMap_cons, List.flatMap_nil]
    simp only [hop]
    rw [List.append_nil]
    have hne : ([d] : List DimRow).isEmpty = false := rfl
    rw [hne]
    show ([d].filterMap fun x =>
      if tvTrue (differ x.attrs s.attrs) = true then some (newRow s) else none) = []
    rw [List.filterMap_eq_nil_iff]
    intro x hx
    rcases List.mem_cons.mp hx with rfl | hx
    · rw [hdif]
      rfl
    · cases hx
  rw [this, List.append_nil]

/-- Witness for the amended null-comparison theorem: an open row with a
null phone against a staging row with phone "111" survives unchanged. -/
theorem scd2_null_pairs_not_differ_witness :
    (⟨Val.str "C1", [Val.null], Val.str "2020-01-01", Val.str "3000-01-01",
        false⟩ : DimRow).deleted = false ∧
    mergeScd2 [⟨Val.str "C1", [Val.str "111"], Val.str "2024-01-01"⟩]
        [⟨Val.str "C1", [Val.null], Val.str "2020-01-01", Val.str "3000-01-01", false⟩] =
      [⟨Val.str "C1", [Val.null], Val.str "2020-01-01", Val.str "3000-01-01", false⟩] :=
  ⟨rfl,
   scd2_null_pairs_not_differ
     ⟨Val.str "C1", [Val.str "111"], Val.str "2024-01-01"⟩
     ⟨Val.str "C1", [Val.null], Val.str "2020-01-01", Val.str "3000-01-01", false⟩
     rfl (by decide) (by decide)⟩

/-- C6: the geo detector reports one event per qualifying first
transaction: any two joined transactions of the same passport holder in
different terminal cities within 3600 seconds produce an event for the
one meeting the date floor; every reported event arises from such a
pair; and the 10:00 / 13:00 pair (10800 s apart) produces nothing. -/
theorem geo_detector_reports :
    (∀ (floor : Int) (txs : List GeoTx) (t1 t2 : GeoTx), t1 ∈ txs → t2 ∈ txs →
      t1.passport = t2.passport → t1.city ≠ t2.city → |t2.date - t1.date| ≤ 3600 →
      floor ≤ t1.date → (t1.date, t1.passport) ∈ geoEvents floor txs) ∧
    (∀ (floor : Int) (txs : List GeoTx) (e : Int × String), e ∈ geoEvents floor txs →
      ∃ t1, t1 ∈ txs ∧ e = (t1.date, t1.passport) ∧ floor ≤ t1.date ∧
        ∃ t2, t2 ∈ txs ∧ t1.passport = t2.passport ∧ t1.city ≠ t2.city ∧
          |t2.date - t1.date| ≤ 3600) ∧
    geoEvents 0 [⟨36000, "A", "P"⟩, ⟨46800, "B", "P"⟩] = [] := by
  refine ⟨?_, ?_, by decide⟩
  · intro floor txs t1 t2 h1 h2 hp hc hd hf
    unfold geoEvents
    rw [List.mem_dedup]
    refine List.mem_map.mpr ⟨t1, ?_, rfl⟩
    refine List.mem_filter.mpr ⟨h1, ?_⟩
    rw [Bool.and_eq_true]
    constructor
    · exact decide_eq_true hf
    · exact List.any_eq_true.mpr ⟨t2, h2, by simp [geoPair, hp, hc, hd]⟩
  · intro floor txs e he
    unfold geoEvents at he
    rw [List.mem_dedup] at he
    obtain ⟨t1, ht1, rfl⟩ := List.mem_map.mp he
    obtain ⟨hmem, hcond⟩ := List.mem_filter.mp ht1
    rw [Bool.and_eq_true] at hcond
    obtain ⟨hf, hany⟩ := hcond
    obtain ⟨t2, ht2, hq⟩ := List.any_eq_true.mp hany
    simp only [geoPair, Bool.and_eq_true, decide_eq_true_eq] at hq
    exact ⟨t1, hmem, rfl, of_decide_eq_true hf, t2, ht2, hq.1.1, hq.1.2, hq.2⟩

/-- Witness for the geo theorem: 10:00 in city A and 10:45 in city B,
same passport, yields an event for the 10:00 transaction. -/
theorem geo_detector_reports_witness :
    (36000, "P") ∈ geoEvents 0 [⟨36000, "A", "P"⟩, ⟨38700, "B", "P"⟩] :=
  geo_detector_reports.1 0 _ ⟨36000, "A", "P"⟩ ⟨38700, "B", "P"⟩
    (List.mem_cons_self _ _) (by simp) rfl (by decide) (by decide) (by decide)

/-- A row with no null column compares SQL-equal to itself. -/
theorem rowEqTrue_refl (r : Row) (h : ∀ v ∈ r, v ≠ Val.null) :
    rowEqTrue r r = true := by
  induction r with
  | nil => rfl
  | cons a t ih =>
    show (tvTrue (sqlEq a a) && rowEqTrue t t) = true
    rw [Bool.and_eq_true]
    exact ⟨sqlEq_self (h a (List.mem_cons_self _ _)),
      ih (fun v hv => h v (List.mem_cons_of_mem _ hv))⟩

/-- C8 (amended): when every mapped source value is non-null,
`copy_missing` inserts a source row only when no destination row
matches it on all mapped columns, re-running with unchanged tables
inserts nothing, and (for pairwise-distinct source rows and a
duplicate-free destination) no duplicate destination rows arise.
(With a null column the claim fails: see the null counterexample.) -/
theorem copy_missing_idempotent (src dst : List Row)
    (h : ∀ r ∈ src, ∀ v ∈ r, v ≠ Val.null) :
    copyMissing src (copyMissing src dst) = copyMissing src dst ∧
    (src.Pairwise (fun a b => rowEqTrue a b = false) →
      dst.Pairwise (fun a b => rowEqTrue a b = false) →
      (copyMissing src dst).Pairwise (fun a b => rowEqTrue a b = false)) := by
  constructor
  · show copyMissing src dst ++
        src.filter (fun s => !((copyMissing src dst).any (fun d => rowEqTrue d s))) =
      copyMissing src dst
    have hnil : src.filter
        (fun s => !((copyMissing src dst).any (fun d => rowEqTrue d s))) = [] := by
      rw [List.filter_eq_nil_iff]
      intro s hs
      suffices hyes : (copyMissing src dst).any (fun d => rowEqTrue d s) = true by
        simp [hyes]
      show (dst ++ src.filter _).any _ = true
      rw [List.any_append]
      by_cases hin : dst.any (fun d => rowEqTrue d s) = true
      · simp [hin]
      · have hsf : s ∈ src.filter (fun x => !(dst.any (fun d => rowEqTrue d x))) :=
          List.mem_filter.mpr ⟨hs, by simp [hin]⟩
        have : (src.filter (fun x => !(dst.any (fun d => rowEqTrue d x)))).any
            (fun d => rowEqTrue d s) = true :=
          List.any_eq_true.mpr ⟨s, hsf, rowEqTrue_refl s (h s hs)⟩
        simp [this]
    rw [hnil, List.append_nil]
  · intro hsrc hdst
    show (dst ++ src.filter _).Pairwise _
    rw [List.pairwise_append]
    refine ⟨hdst, List.Pairwise.sublist (List.filter_sublist _) hsrc, ?_⟩
    intro d hd f hf
    have hcond := (List.mem_filter.mp hf).2
    rw [Bool.not_eq_eq_eq_not, Bool.not_true] at hcond
    have := List.any_eq_false.mp hcond d hd
    simpa using this

/-- Witness for the amended copy-missing theorem at a concrete
non-null source. -/
theorem copy_missing_idempotent_witness :
    (∀ r ∈ [[Val.str "x"], [Val.str "y"]], ∀ v ∈ r, v ≠ Val.null) ∧
    copyMissing [[Val.str "x"], [Val.str "y"]]
        (copyMissing [[Val.str "x"], [Val.str "y"]] [[Val.str "x"]]) =
      copyMissing [[Val.str "x"], [Val.str "y"]] [[Val.str "x"]] :=
  ⟨by decide, (copy_missing_idempotent _ [[Val.str "x"]] (by decide)).1⟩

/-- C9: unknown-field asymmetry: an unresolved staging field makes
`insert_to_stg_table` raise (no state returned, no table touched),
while the SCD2 merge and fact propagation silently return the database
unchanged when either side of their name pair is unresolved. -/
theorem unknown_field_asymmetry (stgN : STGNames) (dimN : DIMNames)
    (factN : FACTNames) (field : String) (data : List Row) (db : Db)
    (dbS : DbStg) (dbD : DbDim) :
    (resolveSTG stgN field = none → insertToStg stgN field data db = none) ∧
    (resolveSTG stgN field = none ∨ resolveDIM dimN field = none →
      mergeScd2Op stgN dimN field dbS dbD = dbD) ∧
    (resolveSTG stgN field = none ∨ resolveFACT factN field = none →
      factPropOp stgN factN field db = db) := by
  refine ⟨?_, ?_, ?_⟩
  · intro h
    unfold insertToStg
    rw [h]
  · intro h
    unfold mergeScd2Op
    rcases h with h | h
    · rw [h]
    · rw [h]
      cases resolveSTG stgN field <;> rfl
  · intro h
    unfold factPropOp
    rcases h with h | h
    · rw [h]
    · rw [h]
      cases resolveSTG stgN field <;> rfl

/-- Witness for the asymmetry theorem at a field name missing from
every group. -/
theorem unknown_field_asymmetry_witness :
    resolveSTG ⟨"sa", "sb", "sc", "sd", "se", "sf"⟩ "bogus" = none ∧
    insertToStg ⟨"sa", "sb", "sc", "sd", "se", "sf"⟩ "bogus" [] (fun _ => []) = none ∧
    mergeScd2Op ⟨"sa", "sb", "sc", "sd", "se", "sf"⟩ ⟨"da", "dc", "dl", "dt"⟩ "bogus"
      (fun _ => []) (fun _ => []) = (fun _ => []) ∧
    factPropOp ⟨"sa", "sb", "sc", "sd", "se", "sf"⟩ ⟨"fb", "ft"⟩ "bogus"
      (fun _ => []) = (fun _ => []) :=
  ⟨rfl,
   (unknown_field_asymmetry ⟨"sa", "sb", "sc", "sd", "se", "sf"⟩
     ⟨"da", "dc", "dl", "dt"⟩ ⟨"fb", "ft"⟩ "bogus" [] (fun _ => [])
     (fun _ => []) (fun _ => [])).1 rfl,
   (unknown_field_asymmetry ⟨"sa", "sb", "sc", "sd", "se", "sf"⟩
     ⟨"da", "dc", "dl", "dt"⟩ ⟨"fb", "ft"⟩ "bogus" [] (fun _ => [])
     (fun _ => []) (fun _ => [])).2.1 (Or.inl rfl),
   (unknown_field_asymmetry ⟨"sa", "sb", "sc", "sd", "se", "sf"⟩
     ⟨"da", "dc", "dl", "dt"⟩ ⟨"fb", "ft"⟩ "bogus" [] (fun _ => [])
     (fun _ => []) (fun _ => [])).2.2 (Or.inl rfl)⟩

/-- C10: the staging insert is destructive: for a resolvable field the
staging table is cleared and then filled, so afterwards it holds
exactly the input batch, and no other table changes. -/
theorem insert_to_stg_destructive (n : STGNames) (field t : String)
    (data : List Row) (db : Db) (h : resolveSTG n field = some t) :
    insertToStg n field data db = some (clearInsert db t data) ∧
    clearInsert db t data t = data ∧
    ∀ u, u ≠ t → clearInsert db t data u = db u := by
  refine ⟨?_, ?_, ?_⟩
  · unfold insertToStg
    rw [h]
  · unfold clearInsert
    simp
  · intro u hu
    unfold clearInsert
    simp [hu]

/-- Witness for the destructive-staging-insert theorem on the clients
field. -/
theorem insert_to_stg_destructive_witness :
    resolveSTG ⟨"sa", "sb", "sc", "sd", "se", "sf"⟩ "clients" = some "sd" ∧
    insertToStg ⟨"sa", "sb", "sc", "sd", "se", "sf"⟩ "clients" [[Val.str "x"]]
        (fun _ => []) =
      some (clearInsert (fun _ => []) "sd" [[Val.str "x"]]) ∧
    clearInsert (fun _ => ([] : List Row)) "sd" [[Val.str "x"]] "sd" =
      [[Val.str "x"]] :=
  ⟨rfl,
   (insert_to_stg_destructive ⟨"sa", "sb", "sc", "sd", "se", "sf"⟩ "clients" "sd"
     [[Val.str "x"]] (fun _ => []) rfl).1,
   (insert_to_stg_destructive ⟨"sa", "sb", "sc", "sd", "se", "sf"⟩ "clients" "sd"
     [[Val.str "x"]] (fun _ => []) rfl).2.1⟩
